import Mathlib

/-!
Shallow embedding of plaster's loader-resolution core.

The embedded code is `src/plaster/loaders.py` (the loader resolver, plugin discovery,
loader-info handle, and the facade operations).  The plugin environment that
`pkg_resources` exposes (installed distributions, their entry-point maps, the global
entry-point iteration) is modelled as explicit data (`Env`); the external
`entry_point.load()` import is modelled as a function parameter `loadEP`.
`plaster/uri.py`, `plaster/exceptions.py` and `plaster/interfaces.py` are not part of
the given sources; the URI parser and the exception payloads are modelled from the
spec, as marked on their declarations.
-/

/-- A parsed configuration URI: `scheme:path#fragment`.  Field layout from the spec's
data model (the URI Parser of `plaster/uri.py` is not in the given sources). -/
structure ConfigURI where
  scheme : String
  path : String
  fragment : Option String
  deriving Repr, DecidableEq

/-- Input to `parse_uri` / `get_loader`: either a raw string or an already-structured
`ConfigURI` (Python's duck typing, made explicit as a sum). -/
inductive URIInput where
  | raw (s : String)
  | parsed (uri : ConfigURI)
  deriving Repr, DecidableEq

/-- Split a character list at the last occurrence of `sep`: returns the part before and
the part after that occurrence, or `none` when `sep` does not occur. -/
def splitAtLast (sep : Char) : List Char → Option (List Char × List Char)
  | [] => none
  | c :: rest =>
    match splitAtLast sep rest with
    | some (before, after) => some (c :: before, after)
    | none => if c = sep then some ([], rest) else none

/-- Split a character list at the first occurrence of `sep`. -/
def splitAtFirst (sep : Char) : List Char → Option (List Char × List Char)
  | [] => none
  | c :: rest =>
    if c = sep then some ([], rest)
    else
      match splitAtFirst sep rest with
      | some (before, after) => some (c :: before, after)
      | none => none

/-- Embeds Python's `scheme.rsplit('+', 1)`: at most one split, taken at the last `'+'`.
Yields two parts exactly when the string contains a `'+'`, else the singleton list. -/
def rsplit_plus (s : String) : List String :=
  match splitAtLast '+' s.data with
  | some (before, after) => [⟨before⟩, ⟨after⟩]
  | none => [s]

/-- Embeds Python's `str.lower()` on the strings involved (plugin names and schemes),
mapping the basic-latin range `A`-`Z` to `a`-`z` via `Char.toLower`. -/
def py_lower (s : String) : String :=
  ⟨s.data.map Char.toLower⟩

/-- Modelled from the spec: `plaster/uri.py` (the URI Parser) is not in the given
sources.  Per the spec's contract, `parse` accepts an already-structured `ConfigURI`
(pass-through) or a raw string, which must contain a scheme separator (`scheme:rest`);
the remainder is split on an optional trailing `#fragment`.  A string input without a
scheme separator is an `InvalidURI` failure, rendered here as `none`. -/
def parse_uri : URIInput → Option ConfigURI
  | .parsed uri => some uri
  | .raw s =>
    match splitAtFirst ':' s.data with
    | none => none
    | some (schemePart, rest) =>
      match splitAtLast '#' rest with
      | some (pathPart, fragPart) => some ⟨⟨schemePart⟩, ⟨pathPart⟩, some ⟨fragPart⟩⟩
      | none => some ⟨⟨schemePart⟩, ⟨rest⟩, none⟩

/-- One registered plugin entry point: its advertised `name` and the `project_name` of
the owning distribution (`ep.name` and `ep.dist.project_name` in `pkg_resources`). -/
structure EntryPoint where
  name : String
  dist_project_name : String
  deriving Repr, DecidableEq

/-- An installed distribution: its `project_name` and its entry-point map, an
association from capability-group name to the entry names registered under it. -/
structure Distribution where
  project_name : String
  entry_map : List (String × List String)
  deriving Repr, DecidableEq

/-- Embeds `distro.get_entry_map(group).values()`: the entry points the distribution
registers under `group`; each carries the owning distribution's `project_name`. -/
def Distribution.get_entry_map (d : Distribution) (group : String) : List EntryPoint :=
  ((d.entry_map.lookup group).getD []).map fun n => ⟨n, d.project_name⟩

/-- The plugin environment `pkg_resources` queries: the installed distributions. -/
structure Env where
  dists : List Distribution
  deriving Repr, DecidableEq

/-- Embeds `pkg_resources.get_distribution(name)`: resolve an installed distribution by
name (`None`, i.e. the raised `DistributionNotFound`, when absent). -/
def Env.get_distribution (env : Env) (name : String) : Option Distribution :=
  env.dists.find? fun d => d.project_name == name

/-- Embeds `pkg_resources.iter_entry_points(group)`: all entry points registered under
`group` by any installed distribution, in distribution order. -/
def Env.iter_entry_points (env : Env) (group : String) : List EntryPoint :=
  (env.dists.map fun d => d.get_entry_map group).flatten

/-- Settings dictionaries, concretely rendered as association lists. -/
abbrev Settings := List (String × String)

/-- The external loader object a plugin factory produces (`plaster.ILoader`): its three
capabilities, as opaque data/functions supplied by the plugin. -/
structure Loader where
  get_sections : List String
  get_settings : Option String → Option Settings → Settings
  setup_logging : Option Settings → Unit

/-- A loader factory: the callable an entry point resolves to, invoked with the parsed
`ConfigURI`. -/
abbrev LoaderFactory := ConfigURI → Loader

/-- Embeds `EntryPointLoaderInfo`: the descriptor of one discovered plugin.
`_factory` is the memoization slot, `None` until first use. -/
structure EntryPointLoaderInfo where
  entry_point : EntryPoint
  scheme : String
  protocol : Option String
  _factory : Option LoaderFactory

/-- Embeds `EntryPointLoaderInfo.__init__(ep, protocol)`: composite scheme
`'{0}+{1}'.format(ep.name, ep.dist.project_name)`, the query's protocol, empty cache. -/
def EntryPointLoaderInfo.make (ep : EntryPoint) (protocol : Option String) :
    EntryPointLoaderInfo :=
  { entry_point := ep
    scheme := ep.name ++ "+" ++ ep.dist_project_name
    protocol := protocol
    _factory := none }

/-- Embeds the `factory` property: resolve `entry_point.load()` on first access and
memoize it in `_factory`.  `loadEP` interprets the external `entry_point.load()`.
Returns the factory, the updated descriptor, and how many times the external load ran
during this access (the instrumentation that makes laziness observable). -/
def EntryPointLoaderInfo.factory (loadEP : EntryPoint → LoaderFactory)
    (info : EntryPointLoaderInfo) : LoaderFactory × EntryPointLoaderInfo × Nat :=
  match info._factory with
  | none =>
    let f := loadEP info.entry_point
    (f, { info with _factory := some f }, 1)
  | some f => (f, info, 0)

/-- Embeds `EntryPointLoaderInfo.load(config_uri)`: re-parse the URI (a pass-through
when already parsed), then invoke the memoized factory on it.  `none` renders the
`InvalidURI` failure of the parse step. -/
def EntryPointLoaderInfo.load (loadEP : EntryPoint → LoaderFactory)
    (info : EntryPointLoaderInfo) (config_uri : URIInput) :
    Option (Loader × EntryPointLoaderInfo) :=
  match parse_uri config_uri with
  | none => none
  | some uri =>
    let r := info.factory loadEP
    some (r.1 uri, r.2.1)

/-- The capability group `find_loaders` queries: `'plaster.loader_factory'` when no
protocol is requested, else `'plaster.loader_factory.' + protocol`. -/
def loader_group : Option String → String
  | none => "plaster.loader_factory"
  | some protocol => "plaster.loader_factory." ++ protocol

/-- The body of `find_loaders` for a non-`None` scheme, after `scheme = scheme.lower()`
(so `scheme` here is already lowercased).  Phase 1: when `scheme.rsplit('+', 1)` has two
parts and the suffix resolves to an installed distribution, search only that
distribution's entry map, with the local `scheme` replaced by the bare part before the
`'+'`.  Phase 2: when phase 1 matched nothing (including when it never ran), search all
installed entry points of the group with whatever the local `scheme` now holds. -/
def find_loaders_with_scheme (env : Env) (scheme : String) (group : String) :
    List EntryPoint :=
  match rsplit_plus scheme with
  | [name, dname] =>
    match env.get_distribution dname with
    | some distro =>
      let matched := (distro.get_entry_map group).filter fun ep => name == py_lower ep.name
      if matched.isEmpty then
        (env.iter_entry_points group).filter fun ep => name == py_lower ep.name
      else matched
    | none => (env.iter_entry_points group).filter fun ep => scheme == py_lower ep.name
  | _ => (env.iter_entry_points group).filter fun ep => scheme == py_lower ep.name

/-- Embeds `find_loaders(scheme=None, protocol=None)`: pick the capability group from
`protocol`, collect the matching entry points (all of them when `scheme` is `None`),
and wrap each match in a fresh `EntryPointLoaderInfo`. -/
def find_loaders (env : Env) (scheme : Option String) (protocol : Option String) :
    List EntryPointLoaderInfo :=
  let group := loader_group protocol
  let matched_entry_points :=
    match scheme with
    | none => env.iter_entry_points group
    | some sc => find_loaders_with_scheme env (py_lower sc) group
  matched_entry_points.map fun ep => EntryPointLoaderInfo.make ep protocol

/-- The resolver's error taxonomy.  `LoaderNotFound` and `MultipleLoadersFound` live in
`plaster/exceptions.py` (not in the given sources); the payloads here are the arguments
passed at the raise sites in `loaders.py`, which the spec says the exceptions carry.
`invalidURI` models `InvalidURI` from the spec's URI Parser contract. -/
inductive PlasterError where
  | invalidURI
  | loaderNotFound (scheme : String) (protocol : Option String)
  | multipleLoadersFound (scheme : String) (matched : List EntryPointLoaderInfo)
      (protocol : Option String)

/-- The body of `get_loader` after `config_uri = parse_uri(config_uri)` succeeded.
The source's `len < 1` / `len > 1` / `matched_loaders[0]` selection is rendered as a
match on the matched list; the final catch-all covers every length above one and
carries the full matched list. -/
def get_loader_parsed (env : Env) (loadEP : EntryPoint → LoaderFactory)
    (uri : ConfigURI) (protocol : Option String) : Except PlasterError Loader :=
  match find_loaders env (some uri.scheme) protocol with
  | [] => .error (.loaderNotFound uri.scheme protocol)
  | [loader_info] =>
    match loader_info.load loadEP (.parsed uri) with
    | some (loader, _) => .ok loader
    | none => .error .invalidURI
  | matched_loaders => .error (.multipleLoadersFound uri.scheme matched_loaders protocol)

/-- Embeds `get_loader(config_uri, protocol=None)`: parse the URI, then resolve its
`scheme` (the `requested_scheme` of the source) against the discovered loaders. -/
def get_loader (env : Env) (loadEP : EntryPoint → LoaderFactory) (config_uri : URIInput)
    (protocol : Option String) : Except PlasterError Loader :=
  match parse_uri config_uri with
  | none => .error .invalidURI
  | some uri => get_loader_parsed env loadEP uri protocol

/-- Embeds `get_sections(config_uri)`: resolve a loader, delegate. -/
def get_sections (env : Env) (loadEP : EntryPoint → LoaderFactory)
    (config_uri : URIInput) : Except PlasterError (List String) :=
  match get_loader env loadEP config_uri none with
  | .error e => .error e
  | .ok loader => .ok loader.get_sections

/-- Embeds `get_settings(config_uri, section=None, defaults=None)`: resolve a loader,
delegate with `section` and `defaults` passed through. -/
def get_settings (env : Env) (loadEP : EntryPoint → LoaderFactory)
    (config_uri : URIInput) (sectionName : Option String) (defaults : Option Settings) :
    Except PlasterError Settings :=
  match get_loader env loadEP config_uri none with
  | .error e => .error e
  | .ok loader => .ok (loader.get_settings sectionName defaults)

/-- Embeds `setup_logging(config_uri, defaults=None)`: resolve a loader, delegate. -/
def setup_logging (env : Env) (loadEP : EntryPoint → LoaderFactory)
    (config_uri : URIInput) (defaults : Option Settings) : Except PlasterError Unit :=
  match get_loader env loadEP config_uri none with
  | .error e => .error e
  | .ok loader => .ok (loader.setup_logging defaults)

/-- The candidate distribution name whose resolution `find_loaders` attempts for a
non-`None` scheme: the suffix of `scheme.lower().rsplit('+', 1)` exactly when that
rsplit yields two parts — the guard of the distribution-scoped phase in the source. -/
def attempted_distro (scheme : String) : Option String :=
  match rsplit_plus (py_lower scheme) with
  | [_, dname] => some dname
  | _ => none

/-- `ep` is registered under capability group `group` by some installed distribution. -/
def Env.registered (env : Env) (group : String) (ep : EntryPoint) : Prop :=
  ∃ d ∈ env.dists, ep ∈ d.get_entry_map group

/- Concrete test fixtures used by the witnesses below. -/

/-- The plugin `ini` as registered by distribution `dista`. -/
def epIniA : EntryPoint := ⟨"ini", "dista"⟩

/-- The plugin `ini` as registered by distribution `distb`. -/
def epIniB : EntryPoint := ⟨"ini", "distb"⟩

/-- A distribution registering loader plugin `ini`. -/
def distA : Distribution := ⟨"dista", [("plaster.loader_factory", ["ini"])]⟩

/-- A second distribution also registering loader plugin `ini`. -/
def distB : Distribution := ⟨"distb", [("plaster.loader_factory", ["ini"])]⟩

/-- A distribution installed but registering no loader plugins at all. -/
def distC : Distribution := ⟨"distc", []⟩

/-- An environment with no installed distributions. -/
def envEmpty : Env := ⟨[]⟩

/-- An environment with a single `ini` loader plugin. -/
def envA : Env := ⟨[distA]⟩

/-- An environment where two distributions register the same plugin name `ini`. -/
def envAB : Env := ⟨[distA, distB]⟩

/-- An environment with an empty distribution `distc` next to `distb`'s `ini`. -/
def envCB : Env := ⟨[distC, distB]⟩

/-- A loader whose settings echo the section argument it actually received. -/
def reportLoader : Loader :=
  { get_sections := []
    get_settings := fun sec _ => [("received", sec.getD "NONE")]
    setup_logging := fun _ => () }

/-- An external-load interpretation sending every entry point to `reportLoader`. -/
def loadEP0 : EntryPoint → LoaderFactory := fun _ _ => reportLoader

/- Helper lemmas. -/

/-- `splitAtLast` finds a split exactly when the separator occurs. -/
theorem splitAtLast_isSome_iff (sep : Char) :
    ∀ cs : List Char, (splitAtLast sep cs).isSome ↔ sep ∈ cs
  | [] => by simp [splitAtLast]
  | c :: rest => by
    have ih := splitAtLast_isSome_iff sep rest
    rw [splitAtLast]
    cases h : splitAtLast sep rest with
    | some p =>
      rw [h] at ih
      simp only [Option.isSome_some, true_iff] at ih
      simp [List.mem_cons, ih]
    | none =>
      rw [h] at ih
      simp only [Option.isSome_none, Bool.false_eq_true, false_iff] at ih
      by_cases hc : c = sep
      · simp [hc, List.mem_cons]
      · simp [hc, List.mem_cons, ih, eq_comm]
        exact fun h' => hc h'.symm

/-- Packing a valid codepoint and unpacking it is the identity. -/
theorem char_toNat_ofNat (n : Nat) (h : n.isValidChar) : (Char.ofNat n).toNat = n := by
  rw [Char.ofNat, dif_pos h]
  rfl

/-- Lowercasing maps no other character onto `'+'`. -/
theorem toLower_eq_plus_iff (c : Char) : Char.toLower c = '+' ↔ c = '+' := by
  constructor
  · intro h
    simp only [Char.toLower] at h
    split at h
    · next hc =>
      have h43 := congrArg Char.toNat h
      rw [char_toNat_ofNat _ (Or.inl (by omega))] at h43
      have hplus : ('+' : Char).toNat = 43 := by decide
      rw [hplus] at h43
      omega
    · exact h
  · intro h
    rw [h]
    decide

/-- `'+'` survives lowercasing in both directions. -/
theorem mem_plus_map_toLower (cs : List Char) :
    '+' ∈ cs.map Char.toLower ↔ '+' ∈ cs := by
  simp only [List.mem_map]
  constructor
  · rintro ⟨c, hc, h⟩
    rw [toLower_eq_plus_iff] at h
    exact h ▸ hc
  · intro h
    exact ⟨'+', h, by decide⟩

/-- Pass-through of an already-structured URI. -/
theorem parse_uri_parsed (u : ConfigURI) : parse_uri (.parsed u) = some u := rfl

/-- `get_loader` on an already-structured URI is its post-parse body. -/
theorem get_loader_parsed_eq (env : Env) (loadEP : EntryPoint → LoaderFactory)
    (uri : ConfigURI) (protocol : Option String) :
    get_loader env loadEP (.parsed uri) protocol =
      get_loader_parsed env loadEP uri protocol := rfl

/-- `get_loader` only looks at the parsed form of its input URI. -/
theorem get_loader_parse_eq (env : Env) (loadEP : EntryPoint → LoaderFactory)
    (config_uri : URIInput) (protocol : Option String) (uri : ConfigURI)
    (hp : parse_uri config_uri = some uri) :
    get_loader env loadEP config_uri protocol =
      get_loader_parsed env loadEP uri protocol := by
  rw [get_loader, hp]

/-- `get_loader` on zero matches. -/
theorem get_loader_empty (env : Env) (loadEP : EntryPoint → LoaderFactory)
    (uri : ConfigURI) (protocol : Option String)
    (h : find_loaders env (some uri.scheme) protocol = []) :
    get_loader_parsed env loadEP uri protocol =
      .error (.loaderNotFound uri.scheme protocol) := by
  rw [get_loader_parsed, h]

/-- `get_loader` on a unique match. -/
theorem get_loader_single (env : Env) (loadEP : EntryPoint → LoaderFactory)
    (uri : ConfigURI) (protocol : Option String) (info : EntryPointLoaderInfo)
    (h : find_loaders env (some uri.scheme) protocol = [info]) :
    get_loader_parsed env loadEP uri protocol =
      .ok ((info.factory loadEP).1 uri) := by
  rw [get_loader_parsed, h]
  rfl

/-- `get_loader` on more than one match. -/
theorem get_loader_multi (env : Env) (loadEP : EntryPoint → LoaderFactory)
    (uri : ConfigURI) (protocol : Option String)
    (h : 1 < (find_loaders env (some uri.scheme) protocol).length) :
    get_loader_parsed env loadEP uri protocol =
      .error (.multipleLoadersFound uri.scheme
        (find_loaders env (some uri.scheme) protocol) protocol) := by
  cases hm : find_loaders env (some uri.scheme) protocol with
  | nil => rw [hm] at h; simp at h
  | cons a t =>
    cases t with
    | nil => rw [hm] at h; simp at h
    | cons b t2 => rw [get_loader_parsed, hm]

/-- Any member of `iter_entry_points group` is registered under `group`. -/
theorem registered_of_mem_iter (env : Env) (group : String) (ep : EntryPoint)
    (h : ep ∈ env.iter_entry_points group) : env.registered group ep := by
  rw [Env.iter_entry_points, List.mem_flatten] at h
  obtain ⟨l, hl, hel⟩ := h
  rw [List.mem_map] at hl
  obtain ⟨d, hd, rfl⟩ := hl
  exact ⟨d, hd, hel⟩

/-- Every entry point produced by the scheme-directed search is registered under the
queried group. -/
theorem mem_find_loaders_with_scheme_registered (env : Env) (sc group : String)
    (ep : EntryPoint) (h : ep ∈ find_loaders_with_scheme env sc group) :
    env.registered group ep := by
  rw [find_loaders_with_scheme] at h
  split at h
  · next nm dn hsp =>
    split at h
    · next distro hd =>
      simp only [] at h
      split at h
      · exact registered_of_mem_iter env group ep (List.mem_filter.1 h).1
      · have hdm : distro ∈ env.dists := List.mem_of_find?_eq_some hd
        exact ⟨distro, hdm, (List.mem_filter.1 h).1⟩
    · next hd =>
      exact registered_of_mem_iter env group ep (List.mem_filter.1 h).1
  · next l hne =>
    exact registered_of_mem_iter env group ep (List.mem_filter.1 h).1

/- Claim theorems. -/

/-- C1: for every config URI (here: one that parses to `uri`) and protocol,
`get_loader` raises `LoaderNotFound` carrying the requested scheme and the protocol on
zero discovery matches, raises `MultipleLoadersFound` carrying the scheme, the full
list of matches and the protocol on more than one match (never picking the first), and
on exactly one match returns the loader built by the unique match's factory. -/
theorem get_loader_match_cases (env : Env) (loadEP : EntryPoint → LoaderFactory)
    (config_uri : URIInput) (protocol : Option String) (uri : ConfigURI)
    (hp : parse_uri config_uri = some uri) :
    (find_loaders env (some uri.scheme) protocol = [] →
      get_loader env loadEP config_uri protocol =
        .error (.loaderNotFound uri.scheme protocol)) ∧
    (1 < (find_loaders env (some uri.scheme) protocol).length →
      get_loader env loadEP config_uri protocol =
        .error (.multipleLoadersFound uri.scheme
          (find_loaders env (some uri.scheme) protocol) protocol)) ∧
    (∀ info, find_loaders env (some uri.scheme) protocol = [info] →
      get_loader env loadEP config_uri protocol =
        .ok ((info.factory loadEP).1 uri)) := by
  rw [get_loader_parse_eq env loadEP config_uri protocol uri hp]
  exact ⟨get_loader_empty env loadEP uri protocol,
    get_loader_multi env loadEP uri protocol,
    fun info => get_loader_single env loadEP uri protocol info⟩

/-- Witness for C1: all three branches at concrete inputs. -/
theorem get_loader_match_cases_witness :
    (find_loaders envEmpty (some "ini") none = [] ∧
      get_loader envEmpty loadEP0 (.raw "ini:conf") none =
        .error (.loaderNotFound "ini" none)) ∧
    (1 < (find_loaders envAB (some "ini") none).length ∧
      get_loader envAB loadEP0 (.raw "ini:conf") none =
        .error (.multipleLoadersFound "ini" (find_loaders envAB (some "ini") none) none)) ∧
    (find_loaders envA (some "ini") none = [EntryPointLoaderInfo.make epIniA none] ∧
      get_loader envA loadEP0 (.raw "ini:conf") none =
        .ok (((EntryPointLoaderInfo.make epIniA none).factory loadEP0).1
          ⟨"ini", "conf", none⟩)) := by
  have h1 := get_loader_match_cases envEmpty loadEP0 (.raw "ini:conf") none
    ⟨"ini", "conf", none⟩ rfl
  have h2 := get_loader_match_cases envAB loadEP0 (.raw "ini:conf") none
    ⟨"ini", "conf", none⟩ rfl
  have h3 := get_loader_match_cases envA loadEP0 (.raw "ini:conf") none
    ⟨"ini", "conf", none⟩ rfl
  exact ⟨⟨rfl, h1.1 rfl⟩, ⟨by decide, h2.2.1 (by decide)⟩,
    ⟨rfl, h3.2.2 (EntryPointLoaderInfo.make epIniA none) rfl⟩⟩

/-- C2 counterexample: the scheme `a+b+c` contains two `+` separators, not exactly one,
yet the distribution-resolution step is attempted (with suffix `c`, split at the last
`+`), and when distribution `c` is installed the distribution-scoped search runs and
returns its plugin `a+b` — which a search for the bare name `a+b+c` would never find. -/
theorem find_loaders_distro_trigger_counterexample :
    ¬ ((attempted_distro "a+b+c").isSome ↔ "a+b+c".data.count '+' = 1) ∧
    find_loaders ⟨[⟨"c", [("plaster.loader_factory", ["a+b"])]⟩]⟩ (some "a+b+c") none =
      [EntryPointLoaderInfo.make ⟨"a+b", "c"⟩ none] :=
  ⟨by decide, rfl⟩

/-- C2 (amended): the suffix after a `+` separator is treated as a candidate
distribution name (triggering the distribution-scoped search) precisely when the scheme
contains at least one `+`, the candidate being the suffix after the last `+`; with no
`+` the distribution-resolution step is not attempted and the search is the plain
global one over the group. -/
theorem find_loaders_distro_trigger :
    (∀ s : String, (attempted_distro s).isSome ↔ '+' ∈ s.data) ∧
    (∀ (env : Env) (s : String) (protocol : Option String),
      attempted_distro s = none →
      find_loaders env (some s) protocol =
        ((env.iter_entry_points (loader_group protocol)).filter
          fun ep => py_lower s == py_lower ep.name).map
          fun ep => EntryPointLoaderInfo.make ep protocol) := by
  constructor
  · intro s
    have key : (splitAtLast '+' (py_lower s).data).isSome ↔ '+' ∈ s.data :=
      (splitAtLast_isSome_iff '+' (py_lower s).data).trans (mem_plus_map_toLower s.data)
    rw [attempted_distro, rsplit_plus]
    cases h : splitAtLast '+' (py_lower s).data with
    | some p =>
      obtain ⟨a, b⟩ := p
      rw [h] at key
      simpa using key
    | none =>
      rw [h] at key
      simpa using key
  · intro env s protocol hnone
    cases h : splitAtLast '+' (py_lower s).data with
    | some p =>
      obtain ⟨a, b⟩ := p
      rw [attempted_distro, rsplit_plus, h] at hnone
      simp at hnone
    | none =>
      have hr : rsplit_plus (py_lower s) = [py_lower s] := by rw [rsplit_plus, h]
      simp only [find_loaders, find_loaders_with_scheme, hr]

/-- Witness for C2 (amended): a scheme without `+` attempts no distribution resolution
and searches globally. -/
theorem find_loaders_distro_trigger_witness :
    ((attempted_distro "ini").isSome ↔ '+' ∈ "ini".data) ∧
    attempted_distro "ini" = none ∧
    find_loaders envA (some "ini") none =
      ((envA.iter_entry_points (loader_group none)).filter
        fun ep => py_lower "ini" == py_lower ep.name).map
        fun ep => EntryPointLoaderInfo.make ep none :=
  ⟨find_loaders_distro_trigger.1 "ini", rfl,
    find_loaders_distro_trigger.2 envA "ini" none rfl⟩

/-- C3: a scheme whose `+`-suffix names a distribution that is not installed falls
through to the global search over all installed plugins of the group, matching the
unmodified (lowercased) scheme string as the bare name; no error arises from the
unresolvable distribution. -/
theorem find_loaders_unresolved_distro_fallback (env : Env) (s : String)
    (protocol : Option String) (nm dn : String)
    (hsplit : rsplit_plus (py_lower s) = [nm, dn])
    (hdist : env.get_distribution dn = none) :
    find_loaders env (some s) protocol =
      ((env.iter_entry_points (loader_group protocol)).filter
        fun ep => py_lower s == py_lower ep.name).map
        fun ep => EntryPointLoaderInfo.make ep protocol := by
  simp only [find_loaders, find_loaders_with_scheme, hsplit, hdist]

/-- Witness for C3: `ini+missing` with `missing` not installed searches globally for
the whole string `ini+missing` and (here) matches nothing, raising no error. -/
theorem find_loaders_unresolved_distro_fallback_witness :
    rsplit_plus (py_lower "ini+missing") = ["ini", "missing"] ∧
    envA.get_distribution "missing" = none ∧
    find_loaders envA (some "ini+missing") none =
      ((envA.iter_entry_points (loader_group none)).filter
        fun ep => py_lower "ini+missing" == py_lower ep.name).map
        (fun ep => EntryPointLoaderInfo.make ep none) ∧
    find_loaders envA (some "ini+missing") none = [] := by
  refine ⟨by decide, by decide, ?_, rfl⟩
  exact find_loaders_unresolved_distro_fallback envA "ini+missing" none "ini" "missing"
    (by decide) (by decide)

/-- C4: when the `+`-suffix names an installed distribution that registers no plugin
case-insensitively equal to the bare prefix, the global fallback search matches
against the stripped bare prefix (the local scheme variable having been replaced),
not against the full `name+dist` string. -/
theorem find_loaders_stripped_fallback (env : Env) (s : String)
    (protocol : Option String) (nm dn : String) (distro : Distribution)
    (hsplit : rsplit_plus (py_lower s) = [nm, dn])
    (hdist : env.get_distribution dn = some distro)
    (hmiss : (distro.get_entry_map (loader_group protocol)).filter
      (fun ep => nm == py_lower ep.name) = []) :
    find_loaders env (some s) protocol =
      ((env.iter_entry_points (loader_group protocol)).filter
        fun ep => nm == py_lower ep.name).map
        fun ep => EntryPointLoaderInfo.make ep protocol := by
  simp only [find_loaders, find_loaders_with_scheme, hsplit, hdist, hmiss,
    List.isEmpty_nil, if_true]

/-- Witness for C4: `ini+distc` with `distc` installed but empty falls back to the
bare name `ini` and returns the same-named plugin of the unrelated `distb`. -/
theorem find_loaders_stripped_fallback_witness :
    rsplit_plus (py_lower "ini+distc") = ["ini", "distc"] ∧
    envCB.get_distribution "distc" = some distC ∧
    (distC.get_entry_map (loader_group none)).filter
      (fun ep => "ini" == py_lower ep.name) = [] ∧
    find_loaders envCB (some "ini+distc") none =
      [EntryPointLoaderInfo.make epIniB none] := by
  refine ⟨by decide, by decide, by decide, ?_⟩
  have h := find_loaders_stripped_fallback envCB "ini+distc" none "ini" "distc" distC
    (by decide) (by decide) (by decide)
  rw [h]
  rfl

/-- C5: `find_loaders` queries exactly one capability group — the unscoped
`plaster.loader_factory` when `protocol` is `None`, that name dot-suffixed with the
protocol otherwise; the two group names never coincide, and every returned entry is
registered under the queried group (so a protocol query never returns entries
registered only under the unscoped group, and vice versa). -/
theorem find_loaders_group_scoped :
    loader_group none = "plaster.loader_factory" ∧
    (∀ protocol : String, loader_group (some protocol) =
      "plaster.loader_factory." ++ protocol) ∧
    (∀ protocol : String, loader_group (some protocol) ≠ loader_group none) ∧
    (∀ (env : Env) (scheme protocol : Option String)
      (info : EntryPointLoaderInfo), info ∈ find_loaders env scheme protocol →
      env.registered (loader_group protocol) info.entry_point) := by
  refine ⟨rfl, fun _ => rfl, ?_, ?_⟩
  · intro protocol h
    have hlen := congrArg String.length h
    rw [loader_group, loader_group, String.length_append] at hlen
    have h1 : ("plaster.loader_factory." : String).length = 23 := by decide
    have h2 : ("plaster.loader_factory" : String).length = 22 := by decide
    rw [h1, h2] at hlen
    omega
  · intro env scheme protocol info h
    cases scheme with
    | none =>
      simp only [find_loaders, List.mem_map] at h
      obtain ⟨ep, hep, rfl⟩ := h
      exact registered_of_mem_iter env _ ep hep
    | some sc =>
      simp only [find_loaders, List.mem_map] at h
      obtain ⟨ep, hep, rfl⟩ := h
      exact mem_find_loaders_with_scheme_registered env (py_lower sc) _ ep hep

/-- Witness for C5: a concrete returned entry is registered under the queried group. -/
theorem find_loaders_group_scoped_witness :
    EntryPointLoaderInfo.make epIniA none ∈ find_loaders envAB (some "ini") none ∧
    envAB.registered (loader_group none)
      (EntryPointLoaderInfo.make epIniA none).entry_point := by
  have hm : EntryPointLoaderInfo.make epIniA none ∈ find_loaders envAB (some "ini") none := by
    have he : find_loaders envAB (some "ini") none =
        [EntryPointLoaderInfo.make epIniA none, EntryPointLoaderInfo.make epIniB none] := rfl
    rw [he]
    exact List.mem_cons_self _ _
  exact ⟨hm, find_loaders_group_scoped.2.2.2 envAB (some "ini") none
    (EntryPointLoaderInfo.make epIniA none) hm⟩

/-- C6: scheme matching is case-insensitive — schemes with the same lowercasing
produce the same matches in `find_loaders` (hence in `get_loader`, which on a unique
match resolves both case variants to the very same plugin), and a `None` scheme
matches every plugin registered under the group. -/
theorem find_loaders_case_insensitive :
    (∀ (env : Env) (protocol : Option String) (s₁ s₂ : String),
      py_lower s₁ = py_lower s₂ →
      find_loaders env (some s₁) protocol = find_loaders env (some s₂) protocol) ∧
    (∀ (env : Env) (protocol : Option String),
      find_loaders env none protocol =
        (env.iter_entry_points (loader_group protocol)).map
          fun ep => EntryPointLoaderInfo.make ep protocol) ∧
    (∀ (env : Env) (loadEP : EntryPoint → LoaderFactory) (protocol : Option String)
      (u₁ u₂ : ConfigURI) (info : EntryPointLoaderInfo),
      py_lower u₁.scheme = py_lower u₂.scheme →
      find_loaders env (some u₁.scheme) protocol = [info] →
      get_loader env loadEP (.parsed u₁) protocol = .ok ((info.factory loadEP).1 u₁) ∧
      get_loader env loadEP (.parsed u₂) protocol = .ok ((info.factory loadEP).1 u₂)) := by
  have base : ∀ (env : Env) (protocol : Option String) (s₁ s₂ : String),
      py_lower s₁ = py_lower s₂ →
      find_loaders env (some s₁) protocol = find_loaders env (some s₂) protocol := by
    intro env protocol s₁ s₂ h
    simp only [find_loaders, h]
  refine ⟨base, fun _ _ => rfl, ?_⟩
  intro env loadEP protocol u₁ u₂ info hlow hfind
  have hfind₂ : find_loaders env (some u₂.scheme) protocol = [info] := by
    rw [← base env protocol u₁.scheme u₂.scheme hlow]
    exact hfind
  constructor
  · rw [get_loader_parsed_eq]
    exact get_loader_single env loadEP u₁ protocol info hfind
  · rw [get_loader_parsed_eq]
    exact get_loader_single env loadEP u₂ protocol info hfind₂

/-- Witness for C6: `INI` and `ini` produce the same matches and resolve to the same
plugin. -/
theorem find_loaders_case_insensitive_witness :
    py_lower "INI" = py_lower "ini" ∧
    find_loaders envAB (some "INI") none = find_loaders envAB (some "ini") none ∧
    find_loaders envA (some "INI") none = [EntryPointLoaderInfo.make epIniA none] ∧
    get_loader envA loadEP0 (.parsed ⟨"INI", "foo", none⟩) none =
      .ok (((EntryPointLoaderInfo.make epIniA none).factory loadEP0).1
        ⟨"INI", "foo", none⟩) ∧
    get_loader envA loadEP0 (.parsed ⟨"ini", "foo", none⟩) none =
      .ok (((EntryPointLoaderInfo.make epIniA none).factory loadEP0).1
        ⟨"ini", "foo", none⟩) := by
  have h1 := find_loaders_case_insensitive.1 envAB none "INI" "ini" rfl
  have h3 := find_loaders_case_insensitive.2.2 envA loadEP0 none
    ⟨"INI", "foo", none⟩ ⟨"ini", "foo", none⟩ (EntryPointLoaderInfo.make epIniA none)
    rfl rfl
  exact ⟨rfl, h1, rfl, h3.1, h3.2⟩

/-- C7: every `LoaderInfo` returned by `find_loaders` has its composite `scheme` equal
to the matched plugin's name, a `+`, and the owning distribution's project name, and
carries the protocol the query was made under (or `None`). -/
theorem find_loaders_info_fields (env : Env) (scheme protocol : Option String)
    (info : EntryPointLoaderInfo) (h : info ∈ find_loaders env scheme protocol) :
    info.scheme = info.entry_point.name ++ "+" ++ info.entry_point.dist_project_name ∧
    info.protocol = protocol := by
  simp only [find_loaders, List.mem_map] at h
  obtain ⟨ep, hep, rfl⟩ := h
  exact ⟨rfl, rfl⟩

/-- Witness for C7: the concrete match for `ini` carries scheme `ini+dista`. -/
theorem find_loaders_info_fields_witness :
    EntryPointLoaderInfo.make epIniA none ∈ find_loaders envA (some "ini") none ∧
    (EntryPointLoaderInfo.make epIniA none).scheme = "ini+dista" ∧
    (EntryPointLoaderInfo.make epIniA none).protocol = none := by
  have hm : EntryPointLoaderInfo.make epIniA none ∈ find_loaders envA (some "ini") none := by
    have he : find_loaders envA (some "ini") none =
        [EntryPointLoaderInfo.make epIniA none] := rfl
    rw [he]
    exact List.mem_singleton.2 rfl
  have h := find_loaders_info_fields envA (some "ini") none
    (EntryPointLoaderInfo.make epIniA none) hm
  exact ⟨hm, h.1, h.2⟩

/-- C8: the underlying factory is resolved at most once per `EntryPointLoaderInfo`:
the first access performs at most one external load and fills the memo slot, a second
access performs zero external loads and returns the same factory and state, and
`load` invokes exactly the memoized factory. -/
theorem factory_memoized (loadEP : EntryPoint → LoaderFactory)
    (info : EntryPointLoaderInfo) :
    (info.factory loadEP).2.2 ≤ 1 ∧
    (info.factory loadEP).2.1._factory = some (info.factory loadEP).1 ∧
    (info.factory loadEP).2.1.factory loadEP =
      ((info.factory loadEP).1, (info.factory loadEP).2.1, 0) ∧
    (∀ uri : ConfigURI, info.load loadEP (.parsed uri) =
      some ((info.factory loadEP).1 uri, (info.factory loadEP).2.1)) := by
  cases hf : info._factory with
  | none => simp [EntryPointLoaderInfo.factory, EntryPointLoaderInfo.load, parse_uri, hf]
  | some f => simp [EntryPointLoaderInfo.factory, EntryPointLoaderInfo.load, parse_uri, hf]

/-- C9: URI parsing is idempotent and pass-through — re-parsing a parse result returns
it unchanged, and `get_loader` and `LoaderInfo.load` resolve identically on a raw
string and on its parsed `ConfigURI`. -/
theorem parse_uri_idempotent :
    (∀ (s : String) (uri : ConfigURI),
      parse_uri (.raw s) = some uri → parse_uri (.parsed uri) = some uri) ∧
    (∀ uri : ConfigURI, parse_uri (.parsed uri) = some uri) ∧
    (∀ (env : Env) (loadEP : EntryPoint → LoaderFactory) (protocol : Option String)
      (s : String) (uri : ConfigURI), parse_uri (.raw s) = some uri →
      get_loader env loadEP (.raw s) protocol =
        get_loader env loadEP (.parsed uri) protocol) ∧
    (∀ (loadEP : EntryPoint → LoaderFactory) (info : EntryPointLoaderInfo)
      (s : String) (uri : ConfigURI), parse_uri (.raw s) = some uri →
      info.load loadEP (.raw s) = info.load loadEP (.parsed uri)) := by
  refine ⟨fun s uri _ => rfl, fun uri => rfl, ?_, ?_⟩
  · intro env loadEP protocol s uri hp
    rw [get_loader_parse_eq env loadEP (.raw s) protocol uri hp, get_loader_parsed_eq]
  · intro loadEP info s uri hp
    rw [EntryPointLoaderInfo.load, EntryPointLoaderInfo.load, hp, parse_uri_parsed]

/-- Witness for C9: a concrete raw URI and its parse resolve identically. -/
theorem parse_uri_idempotent_witness :
    parse_uri (.raw "ini:foo#bar") = some ⟨"ini", "foo", some "bar"⟩ ∧
    parse_uri (.parsed ⟨"ini", "foo", some "bar"⟩) = some ⟨"ini", "foo", some "bar"⟩ ∧
    get_loader envA loadEP0 (.raw "ini:foo#bar") none =
      get_loader envA loadEP0 (.parsed ⟨"ini", "foo", some "bar"⟩) none := by
  exact ⟨rfl,
    parse_uri_idempotent.1 "ini:foo#bar" ⟨"ini", "foo", some "bar"⟩ rfl,
    parse_uri_idempotent.2.2.1 envA loadEP0 none "ini:foo#bar"
      ⟨"ini", "foo", some "bar"⟩ rfl⟩

/-- C10: `get_settings` resolves a loader via `get_loader` and returns exactly
`loader.get_settings(section, defaults)` with both arguments passed through unchanged
(errors of the resolution propagate unchanged); it performs no fragment fallback of
its own and raises no section error of its own. -/
theorem get_settings_delegates (env : Env) (loadEP : EntryPoint → LoaderFactory)
    (config_uri : URIInput) (sectionName : Option String)
    (defaults : Option Settings) :
    (∀ e, get_loader env loadEP config_uri none = .error e →
      get_settings env loadEP config_uri sectionName defaults = .error e) ∧
    (∀ loader, get_loader env loadEP config_uri none = .ok loader →
      get_settings env loadEP config_uri sectionName defaults =
        .ok (loader.get_settings sectionName defaults)) := by
  constructor
  · intro e h
    rw [get_settings, h]
  · intro loader h
    rw [get_settings, h]

/-- Witness for C10: with a URI carrying fragment `frag` and `section = none`, the
loader receives `none` (no fragment fallback happens in `get_settings`). -/
theorem get_settings_delegates_witness :
    get_loader envA loadEP0 (.raw "ini:x#frag") none = .ok reportLoader ∧
    get_settings envA loadEP0 (.raw "ini:x#frag") none none =
      .ok [("received", "NONE")] := by
  have h := (get_settings_delegates envA loadEP0 (.raw "ini:x#frag") none none).2
    reportLoader rfl
  refine ⟨rfl, ?_⟩
  rw [h]
  rfl
